import Mathlib

/-!
Verification development for the CoS backend (Rust sources under `src/`).

The definitions below are a shallow embedding of the repository's code:

* `src/runtime/event_bus.rs` — the FIFO `EventBus`;
* `src/neo4j/writer.rs` — the versioned graph store: the Cypher transactions
  of `next_decision_version` / `next_truth_version` and
  `persist_decision_version` / `persist_truth_version` are embedded as pure
  state transformers on an association-list graph model (one entry per
  object id; a chain holds its version nodes in creation order, the list of
  CURRENT edges and the SUPERSEDES edges; a Neo4j `elementId` is modelled by
  the node's business key);
* `src/service.rs` — the two pipeline stages' JSON-parse discipline
  (`extract_first_json_object`, the Stage A / Stage B fallbacks), the
  decision-identity resolution and the conversation-cache bound; the
  `serde_json` collaborator is modelled by a small executable JSON parser
  (`serdeFromStr`) covering objects, arrays, strings, decimal numbers,
  booleans and null, which is the fragment the pipeline exchanges;
* `src/api.rs` — role resolution, `role_default_visibility`,
  `visibility_for_agent`, the `agent_traces` redaction loop, the SSE event
  filter, `auth_ok` and the per-handler validation order.

Machine floats (`f32`/`f64` confidences) are modelled as `Rat`; Unicode case
folding (`str::to_lowercase`) is modelled by ASCII `Char.toLower`, which
agrees with the source on every string the claims mention.
-/

namespace CoS

/-- The opening-brace character, written via its code point. -/
def lbrace : Char := Char.ofNat 123

/-- The closing-brace character, written via its code point. -/
def rbrace : Char := Char.ofNat 125

/-- Does the first list start with the second? -/
def listStartsWith : List Char → List Char → Bool
  | _, [] => true
  | [], _ :: _ => false
  | c :: cs, d :: ds => c = d && listStartsWith cs ds

/-- Does the second list occur as a contiguous run inside the first? -/
def listContainsSub : List Char → List Char → Bool
  | [], needle => needle.isEmpty
  | c :: cs, needle => listStartsWith (c :: cs) needle || listContainsSub cs needle

/-- Substring containment on strings, modelling Rust `str::contains`. -/
def containsSub (hay needle : String) : Bool :=
  listContainsSub hay.toList needle.toList

/-- ASCII whitespace, the fragment of `char::is_whitespace` the code meets. -/
def isWsChar (c : Char) : Bool :=
  c = ' ' ∨ c = '\t' ∨ c = '\n' ∨ c = '\r'

/-- Drop leading whitespace characters. -/
def trimLeadingWs : List Char → List Char
  | [] => []
  | c :: cs => if isWsChar c then trimLeadingWs cs else c :: cs

/-- Rust `str::trim`: strip whitespace from both ends. -/
def trimStr (s : String) : String :=
  String.mk ((trimLeadingWs (trimLeadingWs s.toList).reverse).reverse)

/-- Rust `str::to_lowercase`, modelled character-wise (ASCII case fold). -/
def toLowerStr (s : String) : String :=
  String.mk (s.toList.map Char.toLower)

/-- Rust `str::is_empty`. -/
def strIsEmpty (s : String) : Bool :=
  s.toList.isEmpty

/-- JSON values, the data exchanged with the completion collaborator.
Numbers are modelled as rationals (the pipeline reads them via `as_f64`). -/
inductive Json where
  | null : Json
  | bool (b : Bool) : Json
  | num (q : Rat) : Json
  | str (s : String) : Json
  | arr (xs : List Json) : Json
  | obj (fields : List (String × Json)) : Json

/-- Skip JSON whitespace. -/
def skipWs : List Char → List Char
  | c :: cs => if c = ' ' ∨ c = '\n' ∨ c = '\t' ∨ c = '\r' then skipWs cs else c :: cs
  | [] => []

/-- Parse the body of a JSON string (after the opening quote), handling the
common escapes; returns the decoded string and the rest of the input. -/
def parseStringBody : List Char → Option (String × List Char)
  | [] => none
  | '"' :: rest => some ("", rest)
  | '\\' :: 'n' :: rest =>
    (parseStringBody rest).map fun p => ("\n" ++ p.1, p.2)
  | '\\' :: 't' :: rest =>
    (parseStringBody rest).map fun p => ("\t" ++ p.1, p.2)
  | '\\' :: 'r' :: rest =>
    (parseStringBody rest).map fun p => ("\r" ++ p.1, p.2)
  | '\\' :: '"' :: rest =>
    (parseStringBody rest).map fun p => ("\"" ++ p.1, p.2)
  | '\\' :: '\\' :: rest =>
    (parseStringBody rest).map fun p => ("\\" ++ p.1, p.2)
  | '\\' :: '/' :: rest =>
    (parseStringBody rest).map fun p => ("/" ++ p.1, p.2)
  | '\\' :: _ :: _ => none
  | '\\' :: [] => none
  | c :: rest =>
    (parseStringBody rest).map fun p => (String.singleton c ++ p.1, p.2)

/-- Take a maximal run of decimal digits. -/
def takeDigits : List Char → List Char × List Char
  | c :: cs =>
    if c.isDigit then
      let p := takeDigits cs
      (c :: p.1, p.2)
    else ([], c :: cs)
  | [] => ([], [])

/-- Decimal digits to a natural number. -/
def digitsToNat (ds : List Char) : Nat :=
  ds.foldl (fun acc c => acc * 10 + (c.toNat - 48)) 0

/-- Parse a JSON number (optional sign, integer part, optional decimal
fraction); exponent forms are outside the fragment the pipeline exchanges. -/
def parseNumber (cs : List Char) : Option (Rat × List Char) :=
  let (neg, cs) := match cs with
    | '-' :: rest => (true, rest)
    | _ => (false, cs)
  match takeDigits cs with
  | ([], _) => none
  | (ds, rest) =>
    let intPart : Rat := (digitsToNat ds : Nat)
    let (val, rest) := match rest with
      | '.' :: rest2 =>
        match takeDigits rest2 with
        | ([], _) => (intPart, '.' :: rest2)
        | (fs, rest3) =>
          (intPart + (digitsToNat fs : Rat) / ((10 : Rat) ^ fs.length), rest3)
      | _ => (intPart, rest)
    some (if neg then -val else val, rest)

mutual

/-- Fuel-indexed JSON value parser. -/
def parseJsonValue : Nat → List Char → Option (Json × List Char)
  | 0, _ => none
  | fuel + 1, cs =>
    match skipWs cs with
    | [] => none
    | c :: rest =>
      if c = lbrace then parseObjFields fuel rest
      else if c = '[' then parseArrElems fuel rest
      else if c = '"' then
        (parseStringBody rest).map fun p => (Json.str p.1, p.2)
      else
        match c :: rest with
        | 'n' :: 'u' :: 'l' :: 'l' :: r => some (Json.null, r)
        | 't' :: 'r' :: 'u' :: 'e' :: r => some (Json.bool true, r)
        | 'f' :: 'a' :: 'l' :: 's' :: 'e' :: r => some (Json.bool false, r)
        | other => (parseNumber other).map fun p => (Json.num p.1, p.2)

/-- Parse the fields of an object, starting just after the opening brace. -/
def parseObjFields : Nat → List Char → Option (Json × List Char)
  | 0, _ => none
  | fuel + 1, cs =>
    match skipWs cs with
    | [] => none
    | c :: rest =>
      if c = rbrace then some (Json.obj [], rest)
      else parseObjFieldsLoop fuel (c :: rest) []

/-- Parse one `"key": value` pair and then either `,` (loop) or the closing
brace; accumulates parsed fields in order. -/
def parseObjFieldsLoop : Nat → List Char → List (String × Json) →
    Option (Json × List Char)
  | 0, _, _ => none
  | fuel + 1, cs, acc =>
    match skipWs cs with
    | '"' :: rest =>
      match parseStringBody rest with
      | none => none
      | some (key, rest2) =>
        match skipWs rest2 with
        | ':' :: rest3 =>
          match parseJsonValue fuel rest3 with
          | none => none
          | some (v, rest4) =>
            match skipWs rest4 with
            | ',' :: rest5 => parseObjFieldsLoop fuel rest5 (acc ++ [(key, v)])
            | c :: rest5 =>
              if c = rbrace then some (Json.obj (acc ++ [(key, v)]), rest5)
              else none
            | [] => none
        | _ => none
    | _ => none

/-- Parse the elements of an array, starting just after `[`. -/
def parseArrElems : Nat → List Char → Option (Json × List Char)
  | 0, _ => none
  | fuel + 1, cs =>
    match skipWs cs with
    | ']' :: rest => some (Json.arr [], rest)
    | other => parseArrElemsLoop fuel other []

/-- Parse one array element and then either `,` (loop) or `]`. -/
def parseArrElemsLoop : Nat → List Char → List Json → Option (Json × List Char)
  | 0, _, _ => none
  | fuel + 1, cs, acc =>
    match parseJsonValue fuel cs with
    | none => none
    | some (v, rest) =>
      match skipWs rest with
      | ',' :: rest2 => parseArrElemsLoop fuel rest2 (acc ++ [v])
      | ']' :: rest2 => some (Json.arr (acc ++ [v]), rest2)
      | _ => none

end

/-- `serde_json::from_str::<Value>` modelled on the exchanged JSON fragment:
the whole input (up to surrounding whitespace) must be one JSON value. -/
def serdeFromStr (s : String) : Option Json :=
  match parseJsonValue (2 * s.length + 2) s.toList with
  | some (j, rest) => if (skipWs rest).isEmpty then some j else none
  | none => none

/-- Object-field lookup (`Value::get` on an object); `none` on non-objects. -/
def Json.get (j : Json) (k : String) : Option Json :=
  match j with
  | .obj fields => lookupField fields k
  | _ => none
where lookupField : List (String × Json) → String → Option Json
  | [], _ => none
  | (k0, v) :: rest, k => if k0 = k then some v else lookupField rest k

/-- `Value::as_str`. -/
def Json.as_str : Json → Option String
  | .str s => some s
  | _ => none

/-- `Value::as_f64` (rational model of the floating read). -/
def Json.as_f64 : Json → Option Rat
  | .num q => some q
  | _ => none

/-- `Value::as_array`. -/
def Json.as_array : Json → Option (List Json)
  | .arr xs => some xs
  | _ => none

/-- First index of a character in a list, if any (Rust `str::find`). -/
def firstIdxOf (c : Char) : List Char → Option Nat
  | [] => none
  | d :: ds => if d = c then some 0 else (firstIdxOf c ds).map (· + 1)

/-- Last index of a character in a list, if any (Rust `str::rfind`). -/
def lastIdxOf (c : Char) (cs : List Char) : Option Nat :=
  (firstIdxOf c cs.reverse).map (fun i => cs.length - 1 - i)

/-- `extract_first_json_object` from `src/service.rs` (also duplicated in
`src/nodes.rs`): the substring from the first opening brace to the last
closing brace, or `none` when the braces are missing or out of order. -/
def extract_first_json_object (s : String) : Option String :=
  match firstIdxOf lbrace s.toList, lastIdxOf rbrace s.toList with
  | some start, some stop =>
    if stop ≤ start then none
    else some (String.mk ((s.toList.drop start).take (stop - start + 1)))
  | _, _ => none

/-! ## Domain data model (`src/domain/mod.rs`) -/

/-- `EventType` from `src/domain/mod.rs`. -/
inductive EventType where
  | decisionSignal
  | update
  | concern
  | clarification
deriving DecidableEq

/-- `Event` from `src/domain/mod.rs`; uuids are modelled as strings and the
timestamp as an integer. -/
structure Event where
  event_id : String
  emitted_by : String
  event_type : EventType
  topic : String
  timestamp : Int
  confidence : Rat
  references : List String

/-- `GraphUpdates` from `src/domain/mod.rs`. -/
structure GraphUpdates where
  nodes : List String
  edges : List String
deriving DecidableEq

/-- `ReasoningTrace` from `src/domain/mod.rs`; the `HashMap` routing is
modelled as an association list. -/
structure ReasoningTrace where
  decision_id : String
  topic : String
  summary : String
  version : Int
  rationale : String
  evidence : List String
  assumptions : List String
  trigger_events : List String
  agents_involved : List String
  graph_updates : GraphUpdates
  routing : List (String × String)
deriving DecidableEq

/-! ## EventBus (`src/runtime/event_bus.rs`) -/

/-- The FIFO intake queue; `VecDeque<Event>` modelled as a list with the
front at the head. -/
structure EventBus where
  queue : List Event

/-- `EventBus::new`. -/
def EventBus.new : EventBus := ⟨[]⟩

/-- `EventBus::emit`: `push_back`. -/
def EventBus.emit (b : EventBus) (e : Event) : EventBus :=
  ⟨b.queue ++ [e]⟩

/-- `EventBus::drain`: removes and returns all queued events in order. -/
def EventBus.drain (b : EventBus) : List Event × EventBus :=
  (b.queue, ⟨[]⟩)

/-- `EventBus::is_empty`. -/
def EventBus.is_empty (b : EventBus) : Bool :=
  b.queue.isEmpty

/-! ## Stage A / Stage B JSON-parse discipline (`src/service.rs`,
`src/nodes.rs`) -/

/-- The Stage A fallback object built by `ask_and_persist` (and by
`EmployeeAgentNode::execute`) when no JSON can be parsed: defaults plus the
raw completion text as the private note. -/
def employeeFallback (employee_out : String) : Json :=
  Json.obj [("event_type", Json.str "update"), ("topic", Json.str "general"),
    ("confidence", Json.num (1/2)), ("private_note", Json.str employee_out)]

/-- `employee_parsed` in `ask_and_persist` (`src/service.rs`): direct parse,
else parse of the extracted first JSON object, else the fallback. -/
def employee_parsed (employee_out : String) : Json :=
  match serdeFromStr employee_out with
  | some j => j
  | none =>
    match extract_first_json_object employee_out with
    | some ex =>
      match serdeFromStr ex with
      | some j => j
      | none => employeeFallback employee_out
    | none => employeeFallback employee_out

/-- The parse in `EmployeeAgentNode::execute` (`src/nodes.rs`): direct parse,
else immediately the fallback — no extraction step. -/
def employee_parsed_node (out : String) : Json :=
  match serdeFromStr out with
  | some j => j
  | none => employeeFallback out

/-- The classification fields Stage A reads out of the parsed value, with the
source's per-field defaults. -/
structure StageAOut where
  event_type : EventType
  topic : String
  confidence : Rat
  private_note : String
deriving DecidableEq

/-- The field extraction shared verbatim by `src/service.rs` and
`src/nodes.rs` after the Stage A parse. -/
def stageAFields (p : Json) : StageAOut where
  event_type :=
    match (p.get "event_type" >>= Json.as_str).getD "update" with
    | "decision_signal" => EventType.decisionSignal
    | "concern" => EventType.concern
    | "clarification" => EventType.clarification
    | _ => EventType.update
  topic := (p.get "topic" >>= Json.as_str).getD "general"
  confidence := (p.get "confidence" >>= Json.as_f64).getD (1/2)
  private_note := (p.get "private_note" >>= Json.as_str).getD ""

/-- Stage A classification, service path (`ask_and_persist`). -/
def stage_a_service (employee_out : String) : StageAOut :=
  stageAFields (employee_parsed employee_out)

/-- Stage A classification, CLI path (`EmployeeAgentNode::execute`). -/
def stage_a_node (out : String) : StageAOut :=
  stageAFields (employee_parsed_node out)

/-- The Stage B fallback object of `ask_and_persist`: the raw text becomes
`response_text`, everything else defaults. -/
def orgFallback (org_out : String) : Json :=
  Json.obj [("decision_id", Json.str ""), ("decision", Json.str "respond"),
    ("summary", Json.str ""), ("rationale", Json.str ""),
    ("evidence", Json.arr []), ("assumptions", Json.arr []),
    ("response_text", Json.str org_out), ("confidence", Json.num (1/2)),
    ("routing", Json.obj []), ("org_updates", Json.obj [])]

/-- `org_parsed` in `ask_and_persist` (`src/service.rs`); the parse in
`OrgBrainNode::execute` follows the same discipline. -/
def org_parsed (org_out : String) : Json :=
  match serdeFromStr org_out with
  | some j => j
  | none =>
    match extract_first_json_object org_out with
    | some ex =>
      match serdeFromStr ex with
      | some j => j
      | none => orgFallback org_out
    | none => orgFallback org_out

/-- `decision_id_in`: the `decision_id` string supplied by the Stage B
completion, defaulting to the empty string. -/
def decision_id_in (org_out : String) : String :=
  ((org_parsed org_out).get "decision_id" >>= Json.as_str).getD ""

/-- `final_decision_id`: mint the fresh uuid when the supplied id is absent
or empty, otherwise reuse it (`src/service.rs`; same logic in
`OrgBrainNode::execute`). -/
def final_decision_id (org_out fresh_uuid : String) : String :=
  if strIsEmpty (decision_id_in org_out) then fresh_uuid else decision_id_in org_out

/-- The per-agent conversation-cache update at the end of `ask_and_persist`:
push the user and assistant turns, then `split_off` to the most recent 40. -/
def cache_update (entry : List (String × String)) (text response_text : String) :
    List (String × String) :=
  let entry := entry ++ [("user", text), ("assistant", response_text)]
  if entry.length > 40 then
    let keep_from := entry.length - 40
    entry.drop keep_from
  else entry

/-! ## Visibility resolution (`src/api.rs`) -/

/-- `EmployeeRole` from `src/domain/mod.rs`. -/
inductive EmployeeRole where
  | ceo
  | hr
  | engineer
deriving DecidableEq

/-- `employee_role_from_agent_id` (`src/api.rs`). -/
def employee_role_from_agent_id (agent_id : String) : EmployeeRole :=
  match agent_id with
  | "employee_john" => .ceo
  | "employee_sarah" => .hr
  | "employee_bob" => .engineer
  | _ => .engineer

/-- `role_default_visibility` (`src/api.rs`): the organization head always
sees `full`; the other roles see `summary` when the trimmed, case-folded
topic contains one of the role's keywords, else `none`. -/
def role_default_visibility (role : EmployeeRole) (topic : String) : String :=
  let t := toLowerStr (trimStr topic)
  match role with
  | .ceo => "full"
  | .hr =>
    if containsSub t "hr" || containsSub t "people" || containsSub t "hiring"
        || containsSub t "policy" || containsSub t "compensation"
        || containsSub t "performance" then
      "summary"
    else "none"
  | .engineer =>
    if containsSub t "engineer" || containsSub t "eng" || containsSub t "tech"
        || containsSub t "product" || containsSub t "reliab"
        || containsSub t "infra" then
      "summary"
    else "none"

/-- Association-list lookup on a trace's routing map (`HashMap::get`). -/
def lookupRouting : List (String × String) → String → Option String
  | [], _ => none
  | (k, v) :: rest, a => if k = a then some v else lookupRouting rest a

/-- `visibility_for_agent` (`src/api.rs`): an explicit routing entry wins,
else the role default on the trace's topic. -/
def visibility_for_agent (trace : ReasoningTrace) (agent_id : String) : String :=
  match lookupRouting trace.routing agent_id with
  | some level => level
  | none =>
    role_default_visibility (employee_role_from_agent_id agent_id) trace.topic

/-- The fixed keyword set of each role, as listed by
`role_default_visibility`. -/
def roleKeywords : EmployeeRole → List String
  | .ceo => []
  | .hr => ["hr", "people", "hiring", "policy", "compensation", "performance"]
  | .engineer => ["engineer", "eng", "tech", "product", "reliab", "infra"]

/-- The `summary` redaction applied by `agent_traces` and `sse_stream`:
clear `evidence` and `assumptions`, keep every other field. -/
def apply_summary (t : ReasoningTrace) : ReasoningTrace :=
  { t with evidence := [], assumptions := [] }

/-- The filtering loop of the `agent_traces` handler: walk the reversed
trace log, skip traces resolved to `none`, redact those resolved to
`summary`, stop once `limit` traces have been collected. -/
def agent_traces_loop (aid : String) (limit : Nat) :
    List ReasoningTrace → List ReasoningTrace → List ReasoningTrace
  | [], out => out
  | t :: rest, out =>
    let level := visibility_for_agent t aid
    if level = "none" then agent_traces_loop aid limit rest out
    else
      let tt := if level = "summary" then apply_summary t else t
      let out2 := out ++ [tt]
      if limit ≤ out2.length then out2 else agent_traces_loop aid limit rest out2

/-- The trace list returned by `agent_traces` (`src/api.rs`). -/
def agent_traces_body (traces : List ReasoningTrace) (aid : String)
    (limit : Nat) : List ReasoningTrace :=
  agent_traces_loop aid limit traces.reverse []

/-- The per-event filter inside `sse_stream`: no identity means no events;
`none` visibility drops the trace; `summary` delivers the redacted copy. -/
def sse_filter_event (agent_id : Option String) (t : ReasoningTrace) :
    Option ReasoningTrace :=
  match agent_id with
  | some aid =>
    let level := visibility_for_agent t aid
    if level = "none" then none
    else if level = "summary" then some (apply_summary t)
    else some t
  | none => none

/-! ## HTTP validation order (`src/api.rs`) -/

/-- The part of `ApiState` the credential gate reads. -/
structure ApiState where
  api_key : Option String

/-- `auth_ok` (`src/api.rs`): no configured key accepts everything; a
configured key must equal the provided `x-api-key` header (missing header
compares as the empty string). -/
def auth_ok (x_api_key : Option String) (state : ApiState) : Bool :=
  match state.api_key with
  | none => true
  | some expected => x_api_key.getD "" = expected

/-- `normalize_employee_name` (`src/api.rs`). -/
def normalize_employee_name (s : String) : String :=
  toLowerStr (trimStr s)

/-- Rust `opt.map(|s| s.trim()).filter(|s| !s.is_empty())`. -/
def nonemptyTrimmed : Option String → Option String
  | some s => if strIsEmpty (trimStr s) then none else some (trimStr s)
  | none => none

/-- `resolve_employee_agent_id` (`src/api.rs`): header name, then body
employee name (both prefixed `employee_` after normalization), then the raw
body agent id. -/
def resolve_employee_agent_id
    (header_employee_name body_employee_name body_agent_id : Option String) :
    Option String :=
  match nonemptyTrimmed header_employee_name with
  | some v => some ("employee_" ++ normalize_employee_name v)
  | none =>
    match nonemptyTrimmed body_employee_name with
    | some v => some ("employee_" ++ normalize_employee_name v)
    | none => nonemptyTrimmed body_agent_id

/-- Is the JSON value an object (`Value::is_object`)? -/
def Json.is_object : Json → Bool
  | .obj _ => true
  | _ => false

/-- The observable outcome of a handler's validation phase. Work that goes
to external collaborators (completion, STT/TTS, the graph connection) after
validation passes is summarized as `okPayload`; `sseStream` is the stream
response the SSE handler always returns, carrying the resolved viewer. -/
inductive ApiResponse where
  | unauthorized
  | badRequest (msg : String)
  | forbidden
  | internalError (msg : String)
  | okTraces (traces : List ReasoningTrace)
  | okAgentTraces (agent_id : String) (traces : List ReasoningTrace)
  | okPayload
  | sseStream (agent_id : Option String)
deriving DecidableEq

/-- The request body of `/v1/ask`. -/
structure AskRequest where
  text : Option String
  audio_base64 : Option String
  agent_id : Option String
  employee_name : Option String

/-- The validation phase of the `ask` handler: credential, then identity,
then text/audio presence (`audio_base64_valid` stands for the external
base64 decode succeeding). -/
def ask_handler (state : ApiState) (x_api_key header_employee_name : Option String)
    (req : AskRequest) (audio_base64_valid : Bool) : ApiResponse :=
  if !auth_ok x_api_key state then .unauthorized
  else
    match resolve_employee_agent_id header_employee_name req.employee_name
        req.agent_id with
    | none => .badRequest "missing x-employee-name"
    | some _ =>
      match nonemptyTrimmed req.text with
      | some _ => .okPayload
      | none =>
        match nonemptyTrimmed req.audio_base64 with
        | some _ =>
          if audio_base64_valid then .okPayload
          else .badRequest "audio_base64 must be valid base64"
        | none => .badRequest "provide either non-empty text or audio_base64"

/-- The request body of `/v1/knowledge`. -/
structure KnowledgeIngestRequest where
  truth_id : String
  kind : String
  content : String
  agent_id : Option String
  routing : Json
  add_to_rag : Option Bool

/-- The validation phase of the `ingest_knowledge` handler. -/
def ingest_knowledge_handler (state : ApiState) (x_api_key : Option String)
    (req : KnowledgeIngestRequest) : ApiResponse :=
  if !auth_ok x_api_key state then .unauthorized
  else if strIsEmpty (trimStr req.truth_id) then .badRequest "truth_id must be non-empty"
  else if strIsEmpty (trimStr req.kind) then .badRequest "kind must be non-empty"
  else if !req.routing.is_object then
    .badRequest "routing must be an object mapping agent_id -> level"
  else .okPayload

/-- The `list_traces` handler: credential, identity, CEO-only gate, then the
most-recent-first page of the trace log. -/
def list_traces_handler (state : ApiState)
    (x_api_key header_employee_name : Option String) (limit : Option Nat)
    (traces : List ReasoningTrace) : ApiResponse :=
  if !auth_ok x_api_key state then .unauthorized
  else
    match resolve_employee_agent_id header_employee_name none none with
    | none => .badRequest "missing x-employee-name"
    | some agent_id =>
      if employee_role_from_agent_id agent_id ≠ .ceo then .forbidden
      else .okTraces (traces.reverse.take (limit.getD 50))

/-- The `agent_traces` handler: credential, identity, self-or-CEO gate, then
the visibility-filtered page. -/
def agent_traces_handler (state : ApiState)
    (x_api_key header_employee_name : Option String) (agent_id : String)
    (limit : Option Nat) (traces : List ReasoningTrace) : ApiResponse :=
  if !auth_ok x_api_key state then .unauthorized
  else
    match resolve_employee_agent_id header_employee_name none none with
    | none => .badRequest "missing x-employee-name"
    | some caller =>
      if employee_role_from_agent_id caller ≠ .ceo ∧ caller ≠ agent_id then
        .forbidden
      else .okAgentTraces agent_id (agent_traces_body traces agent_id (limit.getD 50))

/-- The `graph_snapshot` handler: credential, then graph availability; the
queries themselves are external. -/
def graph_snapshot_handler (state : ApiState) (x_api_key : Option String)
    (neo4j_available : Bool) : ApiResponse :=
  if !auth_ok x_api_key state then .unauthorized
  else if !neo4j_available then .internalError "neo4j not initialized"
  else .okPayload

/-- The `agent_graph_snapshot` handler. -/
def agent_graph_snapshot_handler (state : ApiState) (x_api_key : Option String)
    (neo4j_available : Bool) : ApiResponse :=
  if !auth_ok x_api_key state then .unauthorized
  else if !neo4j_available then .internalError "neo4j not initialized"
  else .okPayload

/-- The `current_decisions` handler. -/
def current_decisions_handler (state : ApiState) (x_api_key : Option String)
    (neo4j_available : Bool) : ApiResponse :=
  if !auth_ok x_api_key state then .unauthorized
  else if !neo4j_available then .internalError "neo4j not initialized"
  else .okPayload

/-- The `current_truth` handler. -/
def current_truth_handler (state : ApiState) (x_api_key : Option String)
    (neo4j_available : Bool) : ApiResponse :=
  if !auth_ok x_api_key state then .unauthorized
  else if !neo4j_available then .internalError "neo4j not initialized"
  else .okPayload

/-- The `sse_stream` handler (`src/api.rs`): it subscribes, resolves the
viewer from the header or the `employee_name` query parameter, and returns
the stream; the function body contains no call to `auth_ok`. -/
def sse_stream_handler (_state : ApiState)
    (_x_api_key : Option String)
    (header_employee_name employee_name_query : Option String) :
    ApiResponse :=
  .sseStream (resolve_employee_agent_id header_employee_name employee_name_query none)

/-! ## Versioned graph store (`src/neo4j/writer.rs`)

The Cypher transactions are embedded as pure state transformers. A store is
an association list from object id to its chain; a chain records its version
nodes in creation order, the targets of its `CURRENT` edges (the Cypher
`OPTIONAL MATCH … FOREACH DELETE` removes every matched `CURRENT` edge
before the new one is merged, so the model keeps a list) and its
`SUPERSEDES` edges as `(newer-version-id, older-version-id)` pairs. A Neo4j
`elementId` is modelled by the node's business key. -/

/-- `GraphUpdateResult` from `src/neo4j/writer.rs`. -/
structure GraphUpdateResult where
  nodes : List String
  edges : List String
deriving DecidableEq

/-- `routing_agents` (`src/neo4j/writer.rs`): the keys of the routing object
whose level (a non-string reads as `"none"`) is not `"none"`. -/
def routing_agents (routing : Json) : List String :=
  match routing with
  | .obj fields =>
    (fields.filter (fun kv => !(kv.2.as_str.getD "none" = "none"))).map (·.1)
  | _ => []

/-- A `TruthVersion` node as created by `persist_truth_version`; the
`routing_json` property (a serialized string in the source) is modelled by
the routing value itself. -/
structure TruthVersionNode where
  truth_version_id : String
  truth_id : String
  version : Int
  summary : String
  confidence : Rat
  trigger_events : List String
  agents_involved : List String
  routing_agents : List String
  routing_json : Json

/-- The state of one `TruthObject` and its version chain. -/
structure TruthChain where
  kind : String
  versions : List TruthVersionNode
  current : List TruthVersionNode
  supersedes : List (String × String)

/-- The truth side of the graph: object id to chain. -/
abbrev TruthStore := List (String × TruthChain)

/-- Chain lookup by object id (the Cypher `MATCH`/`MERGE` key). -/
def chainOf : TruthStore → String → Option TruthChain
  | [], _ => none
  | (k, c) :: rest, id => if k = id then some c else chainOf rest id

/-- Replace the chain stored under an id, or append a new entry. -/
def setChain : TruthStore → String → TruthChain → TruthStore
  | [], id, c => [(id, c)]
  | (k, c0) :: rest, id, c =>
    if k = id then (id, c) :: rest else (k, c0) :: setChain rest id c

/-- `next_truth_version` (`src/neo4j/writer.rs`): match the object's
`CURRENT` version and return its number plus one; with no row (no object or
no current version) return 1. -/
def next_truth_version (st : TruthStore) (truth_id : String) : Int :=
  match chainOf st truth_id with
  | some ch =>
    match ch.current with
    | tv :: _ => tv.version + 1
    | [] => 1
  | none => 1

/-- `persist_truth_version` (`src/neo4j/writer.rs`), one atomic transaction:
merge the object (setting `kind` only on first creation), create the version
node `"<id>:v<version>"`, delete every existing `CURRENT` edge, merge the
`CURRENT` edge to the new version, link the new version to each old current
via `SUPERSEDES`, and report the touched object and version nodes. -/
def persist_truth_version (st : TruthStore) (truth_id kind : String)
    (version : Int) (summary : String) (confidence : Rat)
    (trigger_events agents_involved : List String) (routing : Json) :
    TruthStore × GraphUpdateResult :=
  let truth_version_id := truth_id ++ ":v" ++ toString version
  let tv : TruthVersionNode :=
    { truth_version_id := truth_version_id, truth_id := truth_id,
      version := version, summary := summary, confidence := confidence,
      trigger_events := trigger_events, agents_involved := agents_involved,
      routing_agents := routing_agents routing, routing_json := routing }
  let ch' : TruthChain :=
    match chainOf st truth_id with
    | none =>
      { kind := kind, versions := [tv], current := [tv], supersedes := [] }
    | some ch =>
      { kind := ch.kind,
        versions := ch.versions ++ [tv],
        current := [tv],
        supersedes := ch.supersedes ++
          ch.current.map (fun old => (truth_version_id, old.truth_version_id)) }
  (setChain st truth_id ch', { nodes := [truth_id, truth_version_id], edges := [] })

/-- The graph part of `ingest_knowledge` (`src/service.rs`): compute the
next version for the truth id, then persist it with confidence 1; returns
the new store, the update result and the version number recorded in the
trace. -/
def ingest_truth_graph (st : TruthStore) (truth_id kind content : String)
    (trigger_event agent_id : String) (routing : Json) :
    TruthStore × GraphUpdateResult × Int :=
  let version := next_truth_version st truth_id
  let (st', upd) := persist_truth_version st truth_id kind version content 1
    [trigger_event] [agent_id] routing
  (st', upd, version)

/-- `n` successive next-then-persist cycles for one truth id on an initially
empty store. -/
def ingest_truth_iter (truth_id kind content trig agent : String)
    (routing : Json) : Nat → TruthStore
  | 0 => []
  | n + 1 =>
    (ingest_truth_graph (ingest_truth_iter truth_id kind content trig agent routing n)
      truth_id kind content trig agent routing).1

/-- A `DecisionVersion` node as created by `persist_decision_version`. -/
structure DecisionVersionNode where
  decision_version_id : String
  decision_id : String
  version : Int
  summary : String
  confidence : Rat
  trigger_events : List String
  agents_involved : List String
  routing_agents : List String
  routing_json : Json

/-- The state of one `Decision` and its version chain (no `kind` tag). -/
structure DecisionChain where
  versions : List DecisionVersionNode
  current : List DecisionVersionNode
  supersedes : List (String × String)

/-- The decision side of the graph. -/
abbrev DecisionStore := List (String × DecisionChain)

/-- Decision-chain lookup by id. -/
def dChainOf : DecisionStore → String → Option DecisionChain
  | [], _ => none
  | (k, c) :: rest, id => if k = id then some c else dChainOf rest id

/-- Replace the decision chain stored under an id, or append a new entry. -/
def dSetChain : DecisionStore → String → DecisionChain → DecisionStore
  | [], id, c => [(id, c)]
  | (k, c0) :: rest, id, c =>
    if k = id then (id, c) :: rest else (k, c0) :: dSetChain rest id c

/-- `next_decision_version` (`src/neo4j/writer.rs`). -/
def next_decision_version (st : DecisionStore) (decision_id : String) : Int :=
  match dChainOf st decision_id with
  | some ch =>
    match ch.current with
    | dv :: _ => dv.version + 1
    | [] => 1
  | none => 1

/-- `persist_decision_version` (`src/neo4j/writer.rs`), one atomic
transaction with the same shape as the truth variant. -/
def persist_decision_version (st : DecisionStore) (decision_id : String)
    (version : Int) (summary : String) (confidence : Rat)
    (trigger_events agents_involved : List String) (routing : Json) :
    DecisionStore × GraphUpdateResult :=
  let decision_version_id := decision_id ++ ":v" ++ toString version
  let dv : DecisionVersionNode :=
    { decision_version_id := decision_version_id, decision_id := decision_id,
      version := version, summary := summary, confidence := confidence,
      trigger_events := trigger_events, agents_involved := agents_involved,
      routing_agents := routing_agents routing, routing_json := routing }
  let ch' : DecisionChain :=
    match dChainOf st decision_id with
    | none => { versions := [dv], current := [dv], supersedes := [] }
    | some ch =>
      { versions := ch.versions ++ [dv],
        current := [dv],
        supersedes := ch.supersedes ++
          ch.current.map (fun old => (decision_version_id, old.decision_version_id)) }
  (dSetChain st decision_id ch', { nodes := [decision_id, decision_version_id], edges := [] })

/-- One synthesis cycle's decision write as in `ask_and_persist`: compute
the next version, then persist it. -/
def decision_cycle_graph (st : DecisionStore) (decision_id summary : String)
    (confidence : Rat) (event_id agent_id : String) (routing : Json) :
    DecisionStore × GraphUpdateResult × Int :=
  let version := next_decision_version st decision_id
  let (st', upd) := persist_decision_version st decision_id version summary
    confidence [event_id] [agent_id] routing
  (st', upd, version)

/-- `n` successive next-then-persist decision cycles for one id on an
initially empty store. -/
def decision_cycle_iter (decision_id summary : String) (confidence : Rat)
    (event_id agent_id : String) (routing : Json) : Nat → DecisionStore
  | 0 => []
  | n + 1 =>
    (decision_cycle_graph
      (decision_cycle_iter decision_id summary confidence event_id agent_id routing n)
      decision_id summary confidence event_id agent_id routing).1

/-! ## The persistence tail of `ask_and_persist` (`src/service.rs`)

Everything after the Stage B synthesis has been computed. The outcomes of
the fallible graph calls (which in the source are network transactions) are
parameters; the source reads `next_decision_version(..).unwrap_or(1)` and
discards persistence errors with `if let Ok(upd) = …`, with no logging
statement and no early return on any of these paths. -/

/-- The already-computed synthesis result entering the persistence tail. -/
structure SynthesisFields where
  response_text : String
  topic : String
  summary : String
  decision_label : String
  rationale : String
  evidence : List String
  assumptions : List String
  routing_map : List (String × String)
  final_decision_id : String
  event_ids : List String
  agent_ids : List String

/-- The outcomes of the downstream graph calls of one cycle. -/
structure PersistOutcomes where
  neo4j_available : Bool
  next_decision : Except String Int
  persist_decision : Except String GraphUpdateResult
  truth_persists : List (Except String GraphUpdateResult)

/-- What the caller and the shared state observe at the end of
`ask_and_persist`: the appended trace log, the returned pair and the log
lines emitted on the persistence paths (the source emits none). -/
structure AskOutcome where
  trace_log : List ReasoningTrace
  response_text : String
  trace : ReasoningTrace
  log_lines : List String
deriving DecidableEq

/-- The persistence tail of `ask_and_persist`: the decision version falls
back to 1 on error, failed writes contribute no graph updates, the trace is
built, appended to the log and returned; no error escapes to the caller. -/
def ask_and_persist_finish (f : SynthesisFields) (o : PersistOutcomes)
    (trace_log : List ReasoningTrace) : Except String AskOutcome :=
  let decision_version : Int :=
    if o.neo4j_available then
      match o.next_decision with
      | .ok v => v
      | .error _ => 1
    else 1
  let graph_updates : GraphUpdates :=
    if o.neo4j_available then
      let g0 : GraphUpdates := { nodes := [], edges := [] }
      let g1 : GraphUpdates :=
        match o.persist_decision with
        | .ok upd => { nodes := g0.nodes ++ upd.nodes, edges := g0.edges ++ upd.edges }
        | .error _ => g0
      o.truth_persists.foldl
        (fun g r =>
          match r with
          | .ok upd => { nodes := g.nodes ++ upd.nodes, edges := g.edges ++ upd.edges }
          | .error _ => g)
        g1
    else { nodes := [], edges := [] }
  let summary := if strIsEmpty f.summary then f.decision_label else f.summary
  let trace : ReasoningTrace :=
    { decision_id := f.final_decision_id, topic := f.topic, summary := summary,
      version := decision_version, rationale := f.rationale,
      evidence := f.evidence, assumptions := f.assumptions,
      trigger_events := f.event_ids, agents_involved := f.agent_ids,
      graph_updates := graph_updates, routing := f.routing_map }
  Except.ok
    { trace_log := trace_log ++ [trace], response_text := f.response_text,
      trace := trace, log_lines := [] }

/-- The version number of the current `TruthVersion` of an object, if any
(the value `next_truth_version` reads before adding one). -/
def current_truth_version_number (st : TruthStore) (truth_id : String) :
    Option Int :=
  match chainOf st truth_id with
  | some ch =>
    match ch.current with
    | tv :: _ => some tv.version
    | [] => none
  | none => none

/-- The version number of the current `DecisionVersion` of an object. -/
def current_decision_version_number (st : DecisionStore) (decision_id : String) :
    Option Int :=
  match dChainOf st decision_id with
  | some ch =>
    match ch.current with
    | dv :: _ => some dv.version
    | [] => none
  | none => none

/-! ## Helper lemmas -/

theorem chainOf_setChain_self (st : TruthStore) (id : String) (c : TruthChain) :
    chainOf (setChain st id c) id = some c := by
  induction st with
  | nil => simp [setChain, chainOf]
  | cons kv rest ih =>
    obtain ⟨k, c0⟩ := kv
    by_cases h : k = id
    · simp [setChain, h, chainOf]
    · simp [setChain, h, chainOf, ih]

theorem dChainOf_dSetChain_self (st : DecisionStore) (id : String)
    (c : DecisionChain) : dChainOf (dSetChain st id c) id = some c := by
  induction st with
  | nil => simp [dSetChain, dChainOf]
  | cons kv rest ih =>
    obtain ⟨k, c0⟩ := kv
    by_cases h : k = id
    · simp [dSetChain, h, dChainOf]
    · simp [dSetChain, h, dChainOf, ih]

theorem next_after_persist_truth (st : TruthStore) (truth_id kind summary : String)
    (version : Int) (confidence : Rat) (te ai : List String) (routing : Json) :
    next_truth_version
      (persist_truth_version st truth_id kind version summary confidence te ai routing).1
      truth_id = version + 1 := by
  unfold persist_truth_version next_truth_version
  cases h : chainOf st truth_id <;> simp [h, chainOf_setChain_self]

theorem next_after_persist_decision (st : DecisionStore) (decision_id summary : String)
    (version : Int) (confidence : Rat) (te ai : List String) (routing : Json) :
    next_decision_version
      (persist_decision_version st decision_id version summary confidence te ai routing).1
      decision_id = version + 1 := by
  unfold persist_decision_version next_decision_version
  cases h : dChainOf st decision_id <;> simp [h, dChainOf_dSetChain_self]

theorem ingest_truth_iter_next (truth_id kind content trig agent : String)
    (routing : Json) (n : Nat) :
    next_truth_version (ingest_truth_iter truth_id kind content trig agent routing n)
      truth_id = (n : Int) + 1 := by
  induction n with
  | zero => rfl
  | succ m ih =>
    show next_truth_version
      (ingest_truth_graph (ingest_truth_iter truth_id kind content trig agent routing m)
        truth_id kind content trig agent routing).1 truth_id = _
    unfold ingest_truth_graph
    simp only []
    rw [next_after_persist_truth, ih]
    push_cast
    ring

theorem decision_cycle_iter_next (decision_id summary : String) (confidence : Rat)
    (event_id agent_id : String) (routing : Json) (n : Nat) :
    next_decision_version
      (decision_cycle_iter decision_id summary confidence event_id agent_id routing n)
      decision_id = (n : Int) + 1 := by
  induction n with
  | zero => rfl
  | succ m ih =>
    show next_decision_version
      (decision_cycle_graph
        (decision_cycle_iter decision_id summary confidence event_id agent_id routing m)
        decision_id summary confidence event_id agent_id routing).1 decision_id = _
    unfold decision_cycle_graph
    simp only []
    rw [next_after_persist_decision, ih]
    push_cast
    ring

theorem chainOf_cons_self (id : String) (c : TruthChain) (rest : TruthStore) :
    chainOf ((id, c) :: rest) id = some c := by
  simp [chainOf]

theorem setChain_cons_self (id : String) (c0 c : TruthChain) (rest : TruthStore) :
    setChain ((id, c0) :: rest) id c = (id, c) :: rest := by
  simp [setChain]

/-! ## Claims -/

/-- C1: for every object id (Decision or TruthObject), `next_version`
returns 1 when no chain (hence no current version) exists and the current
version number plus one otherwise, and after N successive next/persist
cycles for that id it returns N+1. -/
theorem next_version_counting (st : TruthStore) (dst : DecisionStore) (id : String)
    (n : Nat) (kind content trig agent dsummary : String) (confidence : Rat)
    (routing : Json) :
    next_truth_version st id = (current_truth_version_number st id).getD 0 + 1
    ∧ next_decision_version dst id = (current_decision_version_number dst id).getD 0 + 1
    ∧ current_truth_version_number [] id = none
    ∧ current_decision_version_number [] id = none
    ∧ next_truth_version (ingest_truth_iter id kind content trig agent routing n) id
        = (n : Int) + 1
    ∧ next_decision_version
        (decision_cycle_iter id dsummary confidence trig agent routing n) id
        = (n : Int) + 1 := by
  refine ⟨?_, ?_, rfl, rfl,
    ingest_truth_iter_next id kind content trig agent routing n,
    decision_cycle_iter_next id dsummary confidence trig agent routing n⟩
  · unfold next_truth_version current_truth_version_number
    cases chainOf st id with
    | none => rfl
    | some ch =>
      obtain ⟨k, vs, cur, sup⟩ := ch
      cases cur <;> rfl
  · unfold next_decision_version current_decision_version_number
    cases dChainOf dst id with
    | none => rfl
    | some ch =>
      obtain ⟨vs, cur, sup⟩ := ch
      cases cur <;> rfl

/-- C2: ingesting content X into a fresh truth chain yields version 1
carrying X; ingesting content Y again yields version 2 carrying Y, linked to
version 1 by a SUPERSEDES edge with the current designation moved to version
2 alone; and after any `persist_truth_version` exactly one version of the
object is current — the just-written one. -/
theorem truth_chain_two_ingests (tid X Y kind trig1 trig2 agent : String)
    (routing : Json) (st : TruthStore) (version : Int) (vsummary : String)
    (confidence : Rat) (te ai : List String) :
    ((chainOf ((ingest_truth_graph [] tid kind X trig1 agent routing).1) tid).map
        (fun ch => ch.versions.map (fun v => (v.version, v.summary))))
      = some [(1, X)]
    ∧ ((chainOf ((ingest_truth_graph [] tid kind X trig1 agent routing).1) tid).map
        (fun ch => ch.current.map (fun v => v.truth_version_id)))
      = some [tid ++ ":v1"]
    ∧ ((chainOf ((ingest_truth_graph
          (ingest_truth_graph [] tid kind X trig1 agent routing).1
          tid kind Y trig2 agent routing).1) tid).map
        (fun ch => ch.versions.map (fun v => (v.version, v.summary))))
      = some [(1, X), (2, Y)]
    ∧ ((chainOf ((ingest_truth_graph
          (ingest_truth_graph [] tid kind X trig1 agent routing).1
          tid kind Y trig2 agent routing).1) tid).map
        (fun ch => ch.current.map (fun v => (v.truth_version_id, v.version, v.summary))))
      = some [(tid ++ ":v2", 2, Y)]
    ∧ ((chainOf ((ingest_truth_graph
          (ingest_truth_graph [] tid kind X trig1 agent routing).1
          tid kind Y trig2 agent routing).1) tid).map
        (fun ch => ch.supersedes))
      = some [(tid ++ ":v2", tid ++ ":v1")]
    ∧ ((chainOf (persist_truth_version st tid kind version vsummary confidence
          te ai routing).1 tid).map
        (fun ch => ch.current.map (fun v => (v.truth_version_id, v.version, v.summary))))
      = some [(tid ++ ":v" ++ toString version, version, vsummary)] := by
  have hid1 : tid ++ ":v" ++ toString (1 : Int) = tid ++ ":v1" := by
    rw [String.append_assoc]
    congr 1
  have hid2 : tid ++ ":v" ++ toString (2 : Int) = tid ++ ":v2" := by
    rw [String.append_assoc]
    congr 1
  refine ⟨?_, ?_, ?_, ?_, ?_, ?_⟩
  · simp [ingest_truth_graph, persist_truth_version, next_truth_version, chainOf,
      setChain]
  · simp [ingest_truth_graph, persist_truth_version, next_truth_version, chainOf,
      setChain, hid1]
  · simp [ingest_truth_graph, persist_truth_version, next_truth_version, chainOf,
      setChain]
  · simp [ingest_truth_graph, persist_truth_version, next_truth_version, chainOf,
      setChain, hid2]
  · simp [ingest_truth_graph, persist_truth_version, next_truth_version, chainOf,
      setChain, hid1, hid2]
  · unfold persist_truth_version
    cases h : chainOf st tid <;> simp [h, chainOf_setChain_self]

/-- C6 (amended): any outcome of the downstream graph calls — including
failures of `next_version` and `persist_version` — is absorbed: the
persistence tail returns successfully, the already-computed trace is
appended to the trace log and returned with the response text (and the
source emits no log line on these paths). -/
theorem persistence_failures_not_surfaced (f : SynthesisFields) (o : PersistOutcomes)
    (log : List ReasoningTrace) :
    ∃ tr : ReasoningTrace,
      ask_and_persist_finish f o log = Except.ok
        { trace_log := log ++ [tr], response_text := f.response_text, trace := tr,
          log_lines := [] } :=
  ⟨_, rfl⟩

/-- C6 counterexample: with the graph store failing every call, the cycle
still succeeds, appends and returns the trace, and emits no log line — the
failure is swallowed silently, not logged. -/
theorem persistence_failure_silently_ignored :
    (ask_and_persist_finish
      { response_text := "r", topic := "t", summary := "s", decision_label := "d",
        rationale := "", evidence := [], assumptions := [], routing_map := [],
        final_decision_id := "dec-1", event_ids := ["e1"], agent_ids := ["a1"] }
      { neo4j_available := true, next_decision := Except.error "connection refused",
        persist_decision := Except.error "connection refused",
        truth_persists := [Except.error "connection refused"] }
      []).toOption.map (fun out => (out.log_lines, out.trace_log.length, out.response_text))
      = some ([], 1, "r") := rfl

/-- C8: the event bus is FIFO — `emit` appends at the tail, `drain` returns
the whole queue in emission order and empties the bus, and a drain right
after a drain returns nothing. -/
theorem event_bus_fifo (bus : EventBus) (e e1 e2 : Event) :
    ((EventBus.new.emit e1).emit e2).drain.1 = [e1, e2]
    ∧ (bus.drain.2).drain.1 = []
    ∧ (bus.emit e).queue = bus.queue ++ [e]
    ∧ bus.drain.1 = bus.queue
    ∧ (bus.drain.2).queue = [] :=
  ⟨rfl, rfl, rfl, rfl, rfl⟩

/-- C10: after the conversation-cache update the per-agent entry holds at
most 40 turns; it is exactly the suffix of the appended history that drops
the oldest turns beyond 40, so the new user and assistant turns are always
retained. -/
theorem conversation_cache_bound (entry : List (String × String))
    (text response_text : String) :
    (cache_update entry text response_text).length ≤ 40
    ∧ cache_update entry text response_text
        = (entry ++ [("user", text), ("assistant", response_text)]).drop
            (entry.length + 2 - 40)
    ∧ cache_update entry text response_text
        <:+ entry ++ [("user", text), ("assistant", response_text)]
    ∧ ("user", text) ∈ cache_update entry text response_text
    ∧ ("assistant", response_text) ∈ cache_update entry text response_text := by
  have hlen : (entry ++ [("user", text), ("assistant", response_text)]).length
      = entry.length + 2 := by simp
  have heq : cache_update entry text response_text
      = (entry ++ [("user", text), ("assistant", response_text)]).drop
          (entry.length + 2 - 40) := by
    simp only [cache_update, hlen]
    by_cases h : entry.length + 2 > 40
    · rw [if_pos h]
    · rw [if_neg h]
      have h0 : entry.length + 2 - 40 = 0 := by omega
      rw [h0, List.drop_zero]
  have hsplit : (entry ++ [("user", text), ("assistant", response_text)]).drop
      (entry.length + 2 - 40)
      = entry.drop (entry.length + 2 - 40) ++ [("user", text), ("assistant", response_text)] := by
    rw [List.drop_append_of_le_length (by omega)]
  refine ⟨?_, heq, ?_, ?_, ?_⟩
  · rw [heq, List.length_drop, hlen]
    omega
  · rw [heq]
    exact List.drop_suffix _ _
  · rw [heq, hsplit]
    simp
  · rw [heq, hsplit]
    simp

/-- C3: an explicit routing entry for the viewer is returned verbatim,
whatever the role or topic; otherwise the CEO resolves to `full` and any
other role resolves to `summary` exactly when the case-folded topic
contains one of the role's keywords, else `none`. -/
theorem visibility_resolution (trace : ReasoningTrace) (viewer lvl : String) :
    (lookupRouting trace.routing viewer = some lvl →
      visibility_for_agent trace viewer = lvl)
    ∧ (lookupRouting trace.routing viewer = none →
      employee_role_from_agent_id viewer = .ceo →
      visibility_for_agent trace viewer = "full")
    ∧ (lookupRouting trace.routing viewer = none →
      employee_role_from_agent_id viewer ≠ .ceo →
      visibility_for_agent trace viewer =
        (if (roleKeywords (employee_role_from_agent_id viewer)).any
            (fun kw => containsSub (toLowerStr (trimStr trace.topic)) kw)
          then "summary" else "none")) := by
  refine ⟨?_, ?_, ?_⟩
  · intro h
    simp [visibility_for_agent, h]
  · intro h hc
    simp [visibility_for_agent, h, hc, role_default_visibility]
  · intro h hc
    simp only [visibility_for_agent, h]
    cases hq : employee_role_from_agent_id viewer with
    | ceo => exact absurd hq hc
    | hr => simp [role_default_visibility, roleKeywords, Bool.or_assoc]
    | engineer => simp [role_default_visibility, roleKeywords, Bool.or_assoc]

/-- C3 witness: an explicit `full` entry for `employee_bob` wins although
the topic contains no engineer keyword. -/
theorem visibility_resolution_witness :
    visibility_for_agent
      { decision_id := "d", topic := "company picnic", summary := "s", version := 1,
        rationale := "", evidence := ["e"], assumptions := [], trigger_events := [],
        agents_involved := [], graph_updates := { nodes := [], edges := [] },
        routing := [("employee_bob", "full")] } "employee_bob" = "full" :=
  (visibility_resolution
    { decision_id := "d", topic := "company picnic", summary := "s", version := 1,
      rationale := "", evidence := ["e"], assumptions := [], trigger_events := [],
      agents_involved := [], graph_updates := { nodes := [], edges := [] },
      routing := [("employee_bob", "full")] } "employee_bob" "full").1 rfl

theorem agent_traces_loop_mem (aid : String) (limit : Nat) (tt : ReasoningTrace) :
    ∀ (l acc : List ReasoningTrace), tt ∈ agent_traces_loop aid limit l acc →
      tt ∈ acc ∨ ∃ t0, t0 ∈ l ∧ visibility_for_agent t0 aid ≠ "none"
        ∧ (tt = t0 ∨ tt = apply_summary t0) := by
  intro l
  induction l with
  | nil =>
    intro acc h
    exact Or.inl h
  | cons t rest ih =>
    intro acc h
    simp only [agent_traces_loop] at h
    by_cases hv : visibility_for_agent t aid = "none"
    · rw [if_pos hv] at h
      rcases ih acc h with h' | ⟨t0, ht0, hvis, heq⟩
      · exact Or.inl h'
      · exact Or.inr ⟨t0, List.mem_cons_of_mem _ ht0, hvis, heq⟩
    · rw [if_neg hv] at h
      have hshape : tt = (if visibility_for_agent t aid = "summary"
          then apply_summary t else t) → tt = t ∨ tt = apply_summary t := by
        intro he
        by_cases hs : visibility_for_agent t aid = "summary"
        · rw [if_pos hs] at he
          exact Or.inr he
        · rw [if_neg hs] at he
          exact Or.inl he
      by_cases hl : limit ≤ (acc ++ [if visibility_for_agent t aid = "summary"
          then apply_summary t else t]).length
      · rw [if_pos hl] at h
        rcases List.mem_append.mp h with h' | h'
        · exact Or.inl h'
        · exact Or.inr ⟨t, List.mem_cons_self t rest, hv,
            hshape (by simpa using h')⟩
      · rw [if_neg hl] at h
        rcases ih _ h with h' | ⟨t0, ht0, hvis, heq⟩
        · rcases List.mem_append.mp h' with h'' | h''
          · exact Or.inl h''
          · exact Or.inr ⟨t, List.mem_cons_self t rest, hv,
              hshape (by simpa using h'')⟩
        · exact Or.inr ⟨t0, List.mem_cons_of_mem _ ht0, hvis, heq⟩

/-- C4: the `summary` level clears `evidence` and `assumptions` and leaves
every other trace field unchanged; a trace resolved to `none` is skipped by
the `agent_traces` loop and dropped by the SSE filter, so everything a
viewer receives stems from a trace not resolved to `none` (delivered intact
or summary-redacted); with no viewer identity the SSE filter delivers
nothing. -/
theorem summary_redaction_and_none_absence (t : ReasoningTrace)
    (traces rest acc : List ReasoningTrace) (aid : String) (limit : Nat)
    (tt : ReasoningTrace) :
    (apply_summary t).evidence = []
    ∧ (apply_summary t).assumptions = []
    ∧ (apply_summary t).decision_id = t.decision_id
    ∧ (apply_summary t).topic = t.topic
    ∧ (apply_summary t).summary = t.summary
    ∧ (apply_summary t).version = t.version
    ∧ (apply_summary t).rationale = t.rationale
    ∧ (apply_summary t).trigger_events = t.trigger_events
    ∧ (apply_summary t).agents_involved = t.agents_involved
    ∧ (apply_summary t).graph_updates = t.graph_updates
    ∧ (apply_summary t).routing = t.routing
    ∧ (tt ∈ agent_traces_body traces aid limit →
        ∃ t0, t0 ∈ traces ∧ visibility_for_agent t0 aid ≠ "none"
          ∧ (tt = t0 ∨ tt = apply_summary t0))
    ∧ (visibility_for_agent t aid = "none" →
        agent_traces_loop aid limit (t :: rest) acc
          = agent_traces_loop aid limit rest acc)
    ∧ (visibility_for_agent t aid = "none" →
        sse_filter_event (some aid) t = none)
    ∧ sse_filter_event none t = none := by
  refine ⟨rfl, rfl, rfl, rfl, rfl, rfl, rfl, rfl, rfl, rfl, rfl, ?_, ?_, ?_, rfl⟩
  · intro h
    rcases agent_traces_loop_mem aid limit tt traces.reverse [] h with h' | ⟨t0, ht0, hvis, heq⟩
    · simp at h'
    · exact ⟨t0, List.mem_reverse.mp ht0, hvis, heq⟩
  · intro hv
    simp [agent_traces_loop, hv]
  · intro hv
    simp [sse_filter_event, hv]

/-- C4 witness: a trace whose visibility for `employee_bob` resolves to
`none` (no routing entry, engineer role, no engineer keyword in the topic)
is not delivered by the SSE filter. -/
theorem summary_redaction_witness :
    sse_filter_event (some "employee_bob")
      { decision_id := "d", topic := "company picnic", summary := "s", version := 1,
        rationale := "", evidence := ["e"], assumptions := ["a"], trigger_events := [],
        agents_involved := [], graph_updates := { nodes := [], edges := [] },
        routing := [] } = none := by
  have h := summary_redaction_and_none_absence
    { decision_id := "d", topic := "company picnic", summary := "s", version := 1,
      rationale := "", evidence := ["e"], assumptions := ["a"], trigger_events := [],
      agents_involved := [], graph_updates := { nodes := [], edges := [] },
      routing := [] } [] [] [] "employee_bob" 50
    { decision_id := "d", topic := "company picnic", summary := "s", version := 1,
      rationale := "", evidence := ["e"], assumptions := ["a"], trigger_events := [],
      agents_involved := [], graph_updates := { nodes := [], edges := [] },
      routing := [] }
  exact h.2.2.2.2.2.2.2.2.2.2.2.2.2.1 (by decide)

/-- C5 (amended): in the service path, Stage A accepts valid JSON as-is,
falls back to parsing the first-brace-to-last-brace substring when the
whole output fails to parse, and on total failure yields exactly
`event_type=update`, `topic="general"`, `confidence=0.5` with the raw text
as the private note; the CLI `EmployeeAgentNode` path skips the extraction
step but degrades to the same fallback, so neither path propagates a parse
error. -/
theorem stage_a_parse_discipline (s : String) (j : Json) :
    (serdeFromStr s = some j →
      employee_parsed s = j ∧ employee_parsed_node s = j)
    ∧ (serdeFromStr s = none →
      (extract_first_json_object s).bind serdeFromStr = some j →
      employee_parsed s = j)
    ∧ (serdeFromStr s = none →
      (extract_first_json_object s).bind serdeFromStr = none →
      stage_a_service s =
        { event_type := EventType.update, topic := "general",
          confidence := 1/2, private_note := s })
    ∧ (serdeFromStr s = none →
      stage_a_node s =
        { event_type := EventType.update, topic := "general",
          confidence := 1/2, private_note := s }) := by
  refine ⟨?_, ?_, ?_, ?_⟩
  · intro h
    constructor
    · simp [employee_parsed, h]
    · simp [employee_parsed_node, h]
  · intro h1 h2
    cases hx : extract_first_json_object s with
    | none => rw [hx] at h2; simp at h2
    | some ex =>
      rw [hx] at h2
      simp only [Option.some_bind] at h2
      simp [employee_parsed, h1, hx, h2]
  · intro h1 h2
    have hp : employee_parsed s = employeeFallback s := by
      cases hx : extract_first_json_object s with
      | none => simp [employee_parsed, h1, hx]
      | some ex =>
        rw [hx] at h2
        simp only [Option.some_bind] at h2
        simp [employee_parsed, h1, hx, h2]
    show stageAFields (employee_parsed s) = _
    rw [hp]
    rfl
  · intro h1
    show stageAFields (employee_parsed_node s) = _
    have hp : employee_parsed_node s = employeeFallback s := by
      simp [employee_parsed_node, h1]
    rw [hp]
    rfl

/-- C5 witness: a completion output with no JSON at all classifies to the
documented fallback in the service path. -/
theorem stage_a_parse_discipline_witness :
    stage_a_service "thanks, noted!" =
      { event_type := EventType.update, topic := "general", confidence := 1/2,
        private_note := "thanks, noted!" } :=
  (stage_a_parse_discipline "thanks, noted!" Json.null).2.2.1 rfl rfl

/-- C5 counterexample: on JSON embedded in prose the CLI
`EmployeeAgentNode` path does not extract the object — it falls back to
topic `"general"` — while the service path extracts and reads topic
`"infra"` from the same completion output. -/
theorem stage_a_node_skips_extraction :
    (stage_a_node "ok: \x7b\"topic\": \"infra\"\x7d done").topic = "general"
    ∧ (stage_a_node "ok: \x7b\"topic\": \"infra\"\x7d done").private_note
        = "ok: \x7b\"topic\": \"infra\"\x7d done"
    ∧ (stage_a_service "ok: \x7b\"topic\": \"infra\"\x7d done").topic = "infra" :=
  ⟨rfl, rfl, rfl⟩

/-- C7 (amended): when a key is configured and the supplied credential does
not match, every HTTP handler except the SSE stream rejects the request as
unauthorized before any other validation, whatever the rest of the request
holds. -/
theorem credential_gate (state : ApiState) (x_api_key header_name : Option String)
    (req : AskRequest) (b64ok : Bool) (kreq : KnowledgeIngestRequest)
    (limit : Option Nat) (traces : List ReasoningTrace) (agent_id : String)
    (avail : Bool) (h : auth_ok x_api_key state = false) :
    ask_handler state x_api_key header_name req b64ok = .unauthorized
    ∧ ingest_knowledge_handler state x_api_key kreq = .unauthorized
    ∧ list_traces_handler state x_api_key header_name limit traces = .unauthorized
    ∧ agent_traces_handler state x_api_key header_name agent_id limit traces
        = .unauthorized
    ∧ graph_snapshot_handler state x_api_key avail = .unauthorized
    ∧ agent_graph_snapshot_handler state x_api_key avail = .unauthorized
    ∧ current_decisions_handler state x_api_key avail = .unauthorized
    ∧ current_truth_handler state x_api_key avail = .unauthorized := by
  refine ⟨?_, ?_, ?_, ?_, ?_, ?_, ?_, ?_⟩ <;>
    simp [ask_handler, ingest_knowledge_handler, list_traces_handler,
      agent_traces_handler, graph_snapshot_handler, agent_graph_snapshot_handler,
      current_decisions_handler, current_truth_handler, h]

/-- C7 witness: a wrong key is rejected by the `ask` handler although the
request carries a valid identity and non-empty text. -/
theorem credential_gate_witness :
    ask_handler { api_key := some "secret" } (some "wrong") none
      { text := some "hello", audio_base64 := none, agent_id := some "employee_bob",
        employee_name := none } true = .unauthorized :=
  (credential_gate { api_key := some "secret" } (some "wrong") none
    { text := some "hello", audio_base64 := none, agent_id := some "employee_bob",
      employee_name := none } true
    { truth_id := "t1", kind := "k", content := "c", agent_id := none,
      routing := Json.obj [], add_to_rag := none }
    none [] "employee_bob" true rfl).1

/-- C7 counterexample: the SSE handler performs no credential check — with
a key configured and a wrong key supplied it still returns the stream for
the resolved viewer instead of rejecting the request. -/
theorem sse_stream_skips_credential_gate :
    sse_stream_handler { api_key := some "secret" } (some "wrong") none (some "Bob")
      = .sseStream (some "employee_bob")
    ∧ sse_stream_handler { api_key := some "secret" } (some "wrong") none (some "Bob")
      ≠ .unauthorized := by
  refine ⟨rfl, ?_⟩
  decide

/-- C9: when the Stage B completion supplies no `decision_id` (absent key,
non-string, or empty string) a fresh uuid is minted, otherwise the supplied
id is reused; with a non-empty fresh uuid the resulting id is never empty,
and prose around the Stage B JSON object is handled by extraction. -/
theorem decision_identity_resolution (org_out fresh_uuid : String) (j : Json) :
    (strIsEmpty (decision_id_in org_out) = true →
      final_decision_id org_out fresh_uuid = fresh_uuid)
    ∧ (strIsEmpty (decision_id_in org_out) = false →
      final_decision_id org_out fresh_uuid = decision_id_in org_out)
    ∧ (fresh_uuid ≠ "" → final_decision_id org_out fresh_uuid ≠ "")
    ∧ (serdeFromStr org_out = none →
      (extract_first_json_object org_out).bind serdeFromStr = some j →
      org_parsed org_out = j) := by
  refine ⟨?_, ?_, ?_, ?_⟩
  · intro h
    simp [final_decision_id, h]
  · intro h
    simp [final_decision_id, h]
  · intro hf
    by_cases he : strIsEmpty (decision_id_in org_out)
    · have h1 : final_decision_id org_out fresh_uuid = fresh_uuid := by
        simp [final_decision_id, he]
      rw [h1]
      exact hf
    · have h2 : final_decision_id org_out fresh_uuid = decision_id_in org_out := by
        simp [final_decision_id, he]
      rw [h2]
      intro hcontra
      rw [hcontra] at he
      exact he rfl
  · intro h1 h2
    cases hx : extract_first_json_object org_out with
    | none => rw [hx] at h2; simp at h2
    | some ex =>
      rw [hx] at h2
      simp only [Option.some_bind] at h2
      simp [org_parsed, h1, hx, h2]

/-- C9 witness: a Stage B output with prose around the JSON object reuses
the embedded decision id, and a jsonless output still yields a non-empty
(minted) id. -/
theorem decision_identity_resolution_witness :
    final_decision_id "Sure! \x7b\"decision_id\": \"pricing-2024\"\x7d done"
      "3fa85f64-uuid" = "pricing-2024"
    ∧ final_decision_id "no structure here" "3fa85f64-uuid" ≠ "" := by
  constructor
  · have h := (decision_identity_resolution
      "Sure! \x7b\"decision_id\": \"pricing-2024\"\x7d done" "3fa85f64-uuid"
      Json.null).2.1 rfl
    rw [h]
    rfl
  · exact (decision_identity_resolution "no structure here" "3fa85f64-uuid"
      Json.null).2.2.1 (by decide)

end CoS
